import Mathlib

/-!
Verification of the AQI calculator of the aqiindia backend.

The pollutant concentrations and interpolated indices are Python floats in
the source; we embed them as exact rationals (ℚ), and Python's `round`
(round half to even) as `roundHalfEven`. Fallible code is embedded in
`Except Unit`: `Except.error ()` models a raised exception (the
`breakpoints[-1]` IndexError on an empty table), `Except.ok none` models a
returned `None`.
-/

namespace AqiIndia

/-- A breakpoint tuple `(C_low, C_high, I_low, I_high)` as in
`app/api/endpoints.py`: float concentration bounds and integer index bounds. -/
structure Breakpoint where
  C_low : ℚ
  C_high : ℚ
  I_low : ℤ
  I_high : ℤ
deriving DecidableEq

deriving instance DecidableEq for Except

/-- Python's built-in `round` on a real value: round half to even
(banker's rounding), as applied by `int(round(val))` in `get_subindex`. -/
def roundHalfEven (q : ℚ) : ℤ :=
  if q - ⌊q⌋ < 1/2 then ⌊q⌋
  else if 1/2 < q - ⌊q⌋ then ⌊q⌋ + 1
  else if ⌊q⌋ % 2 = 0 then ⌊q⌋ else ⌊q⌋ + 1

/-- The `PM25_BREAKPOINTS` table of `app/api/endpoints.py`. -/
def PM25_BREAKPOINTS : List Breakpoint :=
  [⟨0, 30, 0, 50⟩, ⟨30, 60, 51, 100⟩, ⟨60, 90, 101, 200⟩, ⟨90, 120, 201, 300⟩,
   ⟨120, 250, 301, 400⟩, ⟨250, 350, 401, 500⟩, ⟨350, 500, 501, 999⟩]

/-- The `PM10_BREAKPOINTS` table of `app/api/endpoints.py`. -/
def PM10_BREAKPOINTS : List Breakpoint :=
  [⟨0, 50, 0, 50⟩, ⟨50, 100, 51, 100⟩, ⟨100, 250, 101, 200⟩, ⟨250, 350, 201, 300⟩,
   ⟨350, 430, 301, 400⟩, ⟨430, 500, 401, 500⟩, ⟨500, 1000, 501, 999⟩]

/-- `linear_interpolate(C, bp)` of `app/api/endpoints.py` (C present): if the
band contains `C`, return `slope * (C - C_low) + I_low`, with the degenerate
band returning `float(I_low)`; otherwise return `None`. -/
def linear_interpolate (C : ℚ) (bp : Breakpoint) : Option ℚ :=
  if bp.C_low ≤ C ∧ C ≤ bp.C_high then
    let span_C := bp.C_high - bp.C_low
    if span_C = 0 then some (bp.I_low : ℚ)
    else some (((bp.I_high : ℚ) - (bp.I_low : ℚ)) / span_C * (C - bp.C_low) + (bp.I_low : ℚ))
  else none

/-- The `for bp in breakpoints` loop of `get_subindex`: the first
`linear_interpolate` result that is not `None`. -/
def findInterp (c : ℚ) : List Breakpoint → Option ℚ
  | [] => none
  | bp :: rest =>
    match linear_interpolate c bp with
    | some v => some v
    | none => findInterp c rest

/-- `get_subindex(conc, breakpoints)` of `app/api/endpoints.py`: `None` in,
`None` out; otherwise the first containing band's rounded interpolation;
otherwise, if the concentration exceeds `breakpoints[-1][1]`, the rounded
extrapolation along the last band's slope; otherwise `None`. Evaluating
`breakpoints[-1]` on an empty list raises (modelled as `Except.error ()`). -/
def get_subindex (conc : Option ℚ) (breakpoints : List Breakpoint) :
    Except Unit (Option ℤ) :=
  match conc with
  | none => Except.ok none
  | some c =>
    match findInterp c breakpoints with
    | some v => Except.ok (some (roundHalfEven v))
    | none =>
      match breakpoints.getLast? with
      | none => Except.error ()
      | some last =>
        if last.C_high < c then
          let d := last.C_high - last.C_low
          let span_C := if d ≠ 0 then d else 1
          Except.ok (some (roundHalfEven
            (((last.I_high : ℚ) - (last.I_low : ℚ)) / span_C * (c - last.C_low)
              + (last.I_low : ℚ))))
        else Except.ok none

/-- The aggregation of `city_endpoint` (lines 190-191 of endpoints.py):
`candidates = [x for x in (sub_pm25, sub_pm10) if x is not None]`;
`max(candidates) if candidates else None`. -/
def overall_aqi (sub_pm25 sub_pm10 : Option ℤ) : Option ℤ :=
  match List.filterMap id [sub_pm25, sub_pm10] with
  | [] => none
  | x :: xs => some (xs.foldl max x)

/-- SQL `COALESCE(aqi, 0)` applied to one stored row in `get_top_cities`
of `app/db.py`. -/
def coalesce0 (o : Option ℤ) : ℤ := o.getD 0

/-- The per-city value computed by `get_top_cities` of `app/db.py`:
`SELECT MAX(COALESCE(aqi,0)) ... GROUP BY city` over the city's stored rows
(`none` only when the city has no rows at all). -/
def get_top_cities_aqi (rows : List (Option ℤ)) : Option ℤ :=
  match rows.map coalesce0 with
  | [] => none
  | x :: xs => some (xs.foldl max x)

/-! Helper lemmas shared by the claim theorems. -/

/-- A band strictly below the concentration interpolates to `None`. -/
theorem li_none_of_gt (c lo hi : ℚ) (il ih : ℤ) (h : hi < c) :
    linear_interpolate c ⟨lo, hi, il, ih⟩ = none := by
  simp only [linear_interpolate]
  rw [if_neg]
  rintro ⟨-, h2⟩
  exact absurd h2 (not_le.mpr h)

/-- A band strictly above the concentration interpolates to `None`. -/
theorem li_none_of_lt (c lo hi : ℚ) (il ih : ℤ) (h : c < lo) :
    linear_interpolate c ⟨lo, hi, il, ih⟩ = none := by
  simp only [linear_interpolate]
  rw [if_neg]
  rintro ⟨h1, -⟩
  exact absurd h1 (not_le.mpr h)

/-- The search loop skips a band that interpolates to `None`. -/
theorem findInterp_cons_none {c : ℚ} {bp : Breakpoint} {rest : List Breakpoint}
    (h : linear_interpolate c bp = none) :
    findInterp c (bp :: rest) = findInterp c rest := by
  simp [findInterp, h]

/-- The search loop fails if every band interpolates to `None`. -/
theorem findInterp_none_of_all {c : ℚ} {t : List Breakpoint}
    (h : ∀ bp ∈ t, linear_interpolate c bp = none) : findInterp c t = none := by
  induction t with
  | nil => rfl
  | cons bp rest ih =>
    rw [findInterp_cons_none (h bp (by simp))]
    exact ih fun b hb => h b (by simp [hb])

theorem findInterp_PM25_none_of_gt {c : ℚ} (h : 500 < c) :
    findInterp c PM25_BREAKPOINTS = none := by
  apply findInterp_none_of_all
  intro bp hbp
  fin_cases hbp <;> exact li_none_of_gt _ _ _ _ _ (by linarith)

theorem findInterp_PM10_none_of_gt {c : ℚ} (h : 1000 < c) :
    findInterp c PM10_BREAKPOINTS = none := by
  apply findInterp_none_of_all
  intro bp hbp
  fin_cases hbp <;> exact li_none_of_gt _ _ _ _ _ (by linarith)

theorem findInterp_PM25_none_of_neg {c : ℚ} (h : c < 0) :
    findInterp c PM25_BREAKPOINTS = none := by
  apply findInterp_none_of_all
  intro bp hbp
  fin_cases hbp <;> exact li_none_of_lt _ _ _ _ _ (by linarith)

theorem findInterp_PM10_none_of_neg {c : ℚ} (h : c < 0) :
    findInterp c PM10_BREAKPOINTS = none := by
  apply findInterp_none_of_all
  intro bp hbp
  fin_cases hbp <;> exact li_none_of_lt _ _ _ _ _ (by linarith)

theorem PM25_getLast : PM25_BREAKPOINTS.getLast? = some ⟨350, 500, 501, 999⟩ := rfl

theorem PM10_getLast : PM10_BREAKPOINTS.getLast? = some ⟨500, 1000, 501, 999⟩ := rfl

/-- If a band matched, `get_subindex` returns its rounded interpolation. -/
theorem get_subindex_of_findInterp {c v : ℚ} {t : List Breakpoint}
    (h : findInterp c t = some v) :
    get_subindex (some c) t = Except.ok (some (roundHalfEven v)) := by
  simp [get_subindex, h]

/-- If no band matched and the concentration exceeds the last band's upper
bound, `get_subindex` extrapolates along the last band's slope. -/
theorem get_subindex_extrap {c : ℚ} {t : List Breakpoint} {last : Breakpoint}
    (hf : findInterp c t = none) (hl : t.getLast? = some last)
    (hc : last.C_high < c) (hd : last.C_high - last.C_low ≠ 0) :
    get_subindex (some c) t =
      Except.ok (some (roundHalfEven
        (((last.I_high : ℚ) - (last.I_low : ℚ)) / (last.C_high - last.C_low)
          * (c - last.C_low) + (last.I_low : ℚ)))) := by
  simp [get_subindex, hf, hl, hc, hd]

/-- If no band matched and the concentration does not exceed the last band's
upper bound, `get_subindex` returns `None`. -/
theorem get_subindex_not_above {c : ℚ} {t : List Breakpoint} {last : Breakpoint}
    (hf : findInterp c t = none) (hl : t.getLast? = some last)
    (hc : ¬ last.C_high < c) :
    get_subindex (some c) t = Except.ok none := by
  simp [get_subindex, hf, hl, hc]

/-- Banker rounding never goes below the floor. -/
theorem floor_le_roundHalfEven (q : ℚ) : ⌊q⌋ ≤ roundHalfEven q := by
  unfold roundHalfEven
  split_ifs <;> omega

/-- A rational lower bound by an integer survives banker rounding. -/
theorem le_roundHalfEven {q : ℚ} {n : ℤ} (h : (n : ℚ) ≤ q) : n ≤ roundHalfEven q :=
  le_trans (Int.le_floor.mpr h) (floor_le_roundHalfEven q)

/-! Claim theorems. -/

/-- C1: for every concentration `C` and breakpoint `bp`, if
`C_low ≤ C ≤ C_high` and `C_high ≠ C_low` then `linear_interpolate` returns
`I_low + (I_high - I_low) / (C_high - C_low) * (C - C_low)`; if the band is
degenerate and contains `C` it returns `I_low` exactly; if `C` lies outside
the band it returns `None`. -/
theorem C1_linear_interpolate_contract (C : ℚ) (bp : Breakpoint) :
    (bp.C_low ≤ C → C ≤ bp.C_high → bp.C_high ≠ bp.C_low →
      linear_interpolate C bp =
        some ((bp.I_low : ℚ) +
          ((bp.I_high : ℚ) - (bp.I_low : ℚ)) / (bp.C_high - bp.C_low) * (C - bp.C_low))) ∧
    (bp.C_low ≤ C → C ≤ bp.C_high → bp.C_high = bp.C_low →
      linear_interpolate C bp = some (bp.I_low : ℚ)) ∧
    (¬ (bp.C_low ≤ C ∧ C ≤ bp.C_high) → linear_interpolate C bp = none) := by
  refine ⟨fun h1 h2 h3 => ?_, fun h1 h2 h3 => ?_, fun h => ?_⟩
  · simp only [linear_interpolate, if_pos (And.intro h1 h2)]
    rw [if_neg (sub_ne_zero.mpr h3)]
    exact congrArg some (by ring)
  · simp only [linear_interpolate, if_pos (And.intro h1 h2)]
    rw [if_pos (by rw [h3, sub_self])]
  · simp only [linear_interpolate, if_neg h]

/-- C1 witness: the contract applied to concentration 45 and the second
PM2.5 band. -/
theorem C1_linear_interpolate_contract_witness :
    linear_interpolate 45 ⟨30, 60, 51, 100⟩ =
      some ((51 : ℚ) + ((100 : ℚ) - (51 : ℚ)) / ((60 : ℚ) - 30) * ((45 : ℚ) - 30)) := by
  have h := (C1_linear_interpolate_contract 45 ⟨30, 60, 51, 100⟩).1
    (by norm_num) (by norm_num) (by norm_num)
  simpa using h

/-- C3: the overall AQI of `city_endpoint` is the maximum of the present
sub-indices, `None` when both are absent, and in particular 167 for
`{167, None}`. -/
theorem C3_overall_aqi_max :
    overall_aqi none none = none ∧
    (∀ x : ℤ, overall_aqi (some x) none = some x) ∧
    (∀ y : ℤ, overall_aqi none (some y) = some y) ∧
    (∀ x y : ℤ, overall_aqi (some x) (some y) = some (max x y)) ∧
    overall_aqi (some 167) none = some 167 :=
  ⟨rfl, fun _ => rfl, fun _ => rfl, fun _ _ => rfl, rfl⟩

/-- C4 counterexample: `get_top_cities` coalesces a stored absent AQI to 0,
so a city whose only row has a `NULL` AQI is reported exactly like a city
whose only row has AQI 0 — the stored absent AQI is not distinguishable from
a zero AQI in that read-back path. -/
theorem C4_readback_counterexample :
    get_top_cities_aqi [none] = get_top_cities_aqi [some 0] ∧
    get_top_cities_aqi [none] = some 0 :=
  ⟨rfl, rfl⟩

/-- C4 amended: in the per-city AQI computation of `city_endpoint` an absent
value is never treated as 0 — an absent concentration yields an absent
sub-index, and an absent sub-index is excluded from (never contributes 0 to)
the aggregation; however `get_top_cities` in `app/db.py` reads a stored
absent AQI back as 0 via `COALESCE(aqi, 0)`. -/
theorem C4_absent_never_zero_amended :
    (∀ t : List Breakpoint, get_subindex none t = Except.ok none) ∧
    (∀ x : ℤ, overall_aqi (some x) none = some x ∧ overall_aqi none (some x) = some x) ∧
    overall_aqi none none = none ∧
    get_top_cities_aqi [none] = some 0 :=
  ⟨fun _ => rfl, fun _ => ⟨rfl, rfl⟩, rfl, rfl⟩

/-- C7: concentration 45 falls in the PM2.5 band `(30, 60, 51, 100)`, the
interpolated value is `51 + (49/30) * 15 = 75.5`, and round-half-to-even
(Python's `round`) takes 75.5 to 76, so `get_subindex` returns 76. -/
theorem C7_subindex_45_is_76 :
    linear_interpolate 45 ⟨30, 60, 51, 100⟩ = some (151/2) ∧
    roundHalfEven (151/2) = 76 ∧
    get_subindex (some 45) PM25_BREAKPOINTS = Except.ok (some 76) := by
  refine ⟨by norm_num [linear_interpolate], by norm_num [roundHalfEven], ?_⟩
  norm_num [get_subindex, findInterp, linear_interpolate, PM25_BREAKPOINTS, roundHalfEven]

/-- C2 counterexample: concentration 500.001 exceeds the PM2.5 table's last
upper bound 500, yet the extrapolated value 999.00332 rounds to 999, which is
not strictly greater than the table's nominal maximum index 999. -/
theorem C2_strict_bound_counterexample :
    (500 : ℚ) < 500001/1000 ∧
    get_subindex (some (500001/1000)) PM25_BREAKPOINTS = Except.ok (some 999) ∧
    ¬ (999 : ℤ) > 999 := by
  refine ⟨by norm_num, ?_, by norm_num⟩
  norm_num [get_subindex, findInterp, linear_interpolate, PM25_BREAKPOINTS, roundHalfEven]

/-- C2 amended: for every concentration strictly above the last band's upper
bound, `get_subindex` returns the rounded integer obtained by extending the
last band's linear slope beyond its band — never `None`, never capped — and
that integer is at least (not necessarily strictly greater than) the table's
nominal maximum index 999. -/
theorem C2_extrapolation_amended (c : ℚ) :
    (500 < c →
      get_subindex (some c) PM25_BREAKPOINTS =
        Except.ok (some (roundHalfEven (((999 : ℚ) - 501) / (500 - 350) * (c - 350) + 501))) ∧
      999 ≤ roundHalfEven (((999 : ℚ) - 501) / (500 - 350) * (c - 350) + 501)) ∧
    (1000 < c →
      get_subindex (some c) PM10_BREAKPOINTS =
        Except.ok (some (roundHalfEven (((999 : ℚ) - 501) / (1000 - 500) * (c - 500) + 501))) ∧
      999 ≤ roundHalfEven (((999 : ℚ) - 501) / (1000 - 500) * (c - 500) + 501)) := by
  constructor
  · intro h
    refine ⟨?_, le_roundHalfEven (by norm_num; linarith)⟩
    have heq := get_subindex_extrap (findInterp_PM25_none_of_gt h) PM25_getLast
      (show (500 : ℚ) < c from h) (by norm_num)
    rw [heq]
    norm_num
  · intro h
    refine ⟨?_, le_roundHalfEven (by norm_num; linarith)⟩
    have heq := get_subindex_extrap (findInterp_PM10_none_of_gt h) PM10_getLast
      (show (1000 : ℚ) < c from h) (by norm_num)
    rw [heq]
    norm_num

/-- C2 witness: the amended extrapolation contract applied to PM2.5
concentration 600 (value 1331). -/
theorem C2_extrapolation_amended_witness :
    get_subindex (some 600) PM25_BREAKPOINTS =
      Except.ok (some (roundHalfEven (((999 : ℚ) - 501) / (500 - 350) * ((600 : ℚ) - 350) + 501))) ∧
    999 ≤ roundHalfEven (((999 : ℚ) - 501) / (500 - 350) * ((600 : ℚ) - 350) + 501) :=
  (C2_extrapolation_amended 600).1 (by norm_num)

/-- C5: an absent concentration yields an absent sub-index for both fixed
tables, and a present concentration strictly below the lowest band's lower
bound (negative, since both tables start at 0) also yields `None` rather
than a number or an exception. -/
theorem C5_absent_and_negative (c : ℚ) (h : c < 0) :
    get_subindex none PM25_BREAKPOINTS = Except.ok none ∧
    get_subindex none PM10_BREAKPOINTS = Except.ok none ∧
    get_subindex (some c) PM25_BREAKPOINTS = Except.ok none ∧
    get_subindex (some c) PM10_BREAKPOINTS = Except.ok none := by
  refine ⟨rfl, rfl, ?_, ?_⟩
  · exact get_subindex_not_above (findInterp_PM25_none_of_neg h) PM25_getLast
      (show ¬ (500 : ℚ) < c by linarith)
  · exact get_subindex_not_above (findInterp_PM10_none_of_neg h) PM10_getLast
      (show ¬ (1000 : ℚ) < c by linarith)

/-- C5 witness: absent and negative concentrations at `c = -1`. -/
theorem C5_absent_and_negative_witness :
    get_subindex none PM25_BREAKPOINTS = Except.ok none ∧
    get_subindex none PM10_BREAKPOINTS = Except.ok none ∧
    get_subindex (some (-1)) PM25_BREAKPOINTS = Except.ok none ∧
    get_subindex (some (-1)) PM10_BREAKPOINTS = Except.ok none :=
  C5_absent_and_negative (-1) (by norm_num)

/-- C6: for every breakpoint of either fixed table, interpolation at the
band's lower endpoint gives `I_low` exactly and at the upper endpoint gives
`I_high` exactly. -/
theorem C6_band_endpoints_exact (bp : Breakpoint)
    (h : bp ∈ PM25_BREAKPOINTS ∨ bp ∈ PM10_BREAKPOINTS) :
    linear_interpolate bp.C_low bp = some (bp.I_low : ℚ) ∧
    linear_interpolate bp.C_high bp = some (bp.I_high : ℚ) := by
  rcases h with h | h <;> fin_cases h <;>
    exact ⟨by norm_num [linear_interpolate], by norm_num [linear_interpolate]⟩

/-- C6 witness: the first PM2.5 band hits both of its endpoints. -/
theorem C6_band_endpoints_exact_witness :
    linear_interpolate (0 : ℚ) ⟨0, 30, 0, 50⟩ = some ((0 : ℤ) : ℚ) ∧
    linear_interpolate (30 : ℚ) ⟨0, 30, 0, 50⟩ = some ((50 : ℤ) : ℚ) :=
  C6_band_endpoints_exact ⟨0, 30, 0, 50⟩ (Or.inl (by simp [PM25_BREAKPOINTS]))

/-- C8: both fixed tables are well-formed — concentration lows strictly
increase, each band's upper bound equals the next band's lower bound, the
first lower bound is 0, and every band is non-degenerate (`C_low < C_high`),
so the bands cover `[0, last_high]` with no gaps or overlaps. -/
theorem C8_tables_wellformed :
    (List.Chain' (fun a b => a.C_low < b.C_low ∧ a.C_high = b.C_low) PM25_BREAKPOINTS ∧
      PM25_BREAKPOINTS.head?.map Breakpoint.C_low = some 0 ∧
      List.Forall (fun bp => bp.C_low < bp.C_high) PM25_BREAKPOINTS) ∧
    (List.Chain' (fun a b => a.C_low < b.C_low ∧ a.C_high = b.C_low) PM10_BREAKPOINTS ∧
      PM10_BREAKPOINTS.head?.map Breakpoint.C_low = some 0 ∧
      List.Forall (fun bp => bp.C_low < bp.C_high) PM10_BREAKPOINTS) := by
  refine ⟨⟨?_, rfl, ?_⟩, ?_, rfl, ?_⟩ <;>
    norm_num [PM25_BREAKPOINTS, PM10_BREAKPOINTS, List.chain'_cons, List.forall_cons]

/-- C9: for every present concentration, `get_subindex` on a non-empty table
never faults (the `breakpoints[-1]` access is in bounds and all divisions
are guarded), while on an empty table the `breakpoints[-1]` access raises. -/
theorem C9_no_fault_on_nonempty :
    (∀ (c : ℚ) (t : List Breakpoint), t ≠ [] →
      ∃ r : Option ℤ, get_subindex (some c) t = Except.ok r) ∧
    (∀ c : ℚ, get_subindex (some c) ([] : List Breakpoint) = Except.error ()) := by
  constructor
  · intro c t ht
    cases hf : findInterp c t with
    | some v => exact ⟨some (roundHalfEven v), get_subindex_of_findInterp hf⟩
    | none =>
      cases hl : t.getLast? with
      | none => exact absurd (List.getLast?_eq_none_iff.mp hl) ht
      | some last =>
        by_cases hc : last.C_high < c
        · refine ⟨some (roundHalfEven
            (((last.I_high : ℚ) - (last.I_low : ℚ)) /
              (if last.C_high - last.C_low ≠ 0 then last.C_high - last.C_low else 1)
              * (c - last.C_low) + (last.I_low : ℚ))), ?_⟩
          simp only [get_subindex, hf, hl, if_pos hc]
        · exact ⟨none, get_subindex_not_above hf hl hc⟩
  · intro c
    rfl

/-- C9 witness: concentration 45 on the non-empty PM2.5 table succeeds, on
the empty table it raises. -/
theorem C9_no_fault_on_nonempty_witness :
    (∃ r : Option ℤ, get_subindex (some 45) PM25_BREAKPOINTS = Except.ok r) ∧
    get_subindex (some 45) ([] : List Breakpoint) = Except.error () :=
  ⟨C9_no_fault_on_nonempty.1 45 PM25_BREAKPOINTS (by simp [PM25_BREAKPOINTS]),
   C9_no_fault_on_nonempty.2 45⟩

/-- C10: the bands are tried in table order, so a concentration on a shared
boundary is resolved by the earlier band; in particular 30.0 maps through
the first PM2.5 band to 50, not through the second band to 51. -/
theorem C10_earlier_band_wins :
    (∀ (c : ℚ) (bp : Breakpoint) (rest : List Breakpoint) (v : ℚ),
      linear_interpolate c bp = some v →
      get_subindex (some c) (bp :: rest) = Except.ok (some (roundHalfEven v))) ∧
    get_subindex (some 30) PM25_BREAKPOINTS = Except.ok (some 50) ∧
    get_subindex (some 30) PM25_BREAKPOINTS ≠ Except.ok (some 51) := by
  have h2 : get_subindex (some 30) PM25_BREAKPOINTS = Except.ok (some 50) := by
    norm_num [get_subindex, findInterp, linear_interpolate, PM25_BREAKPOINTS, roundHalfEven]
  refine ⟨fun c bp rest v h => ?_, h2, by rw [h2]; simp⟩
  simp [get_subindex, findInterp, h]

/-- C10 witness: the first-band rule applied to concentration 30 and the
PM2.5 table split at its head. -/
theorem C10_earlier_band_wins_witness :
    get_subindex (some 30)
        (⟨0, 30, 0, 50⟩ :: [⟨30, 60, 51, 100⟩, ⟨60, 90, 101, 200⟩, ⟨90, 120, 201, 300⟩,
          ⟨120, 250, 301, 400⟩, ⟨250, 350, 401, 500⟩, ⟨350, 500, 501, 999⟩]) =
      Except.ok (some (roundHalfEven 50)) :=
  C10_earlier_band_wins.1 30 ⟨0, 30, 0, 50⟩ _ 50 (by norm_num [linear_interpolate])

end AqiIndia
